import Mathlib

/-!  Shallow embedding of the plugin updater (plugin.py / plugin_url.py):
version extraction and comparison, installed-state inspection, and the
per-target effects of the discover / update / sync modes, together with a
model of the remote URL resolver's short-circuit strategy dispatch.  -/

/-- Maximal runs of consecutive ASCII digits in a character list, in order,
as extracted by `re.findall` with the digit-run pattern.  The accumulator
holds the current run reversed. -/
def digitRunsAux : List Char → List Char → List (List Char)
  | [], acc => if acc.isEmpty then [] else [acc.reverse]
  | ch :: rest, acc =>
    if ch.isDigit then digitRunsAux rest (ch :: acc)
    else if acc.isEmpty then digitRunsAux rest []
    else acc.reverse :: digitRunsAux rest []

/-- Decimal value of a digit run, as computed by Python `int`. -/
def runVal (run : List Char) : Nat :=
  run.foldl (fun a ch => 10 * a + (ch.toNat - 48)) 0

/-- plugin.py `version_tuple`: the tuple of integers obtained from all digit
runs of the version string. -/
def version_tuple (v : String) : List Nat :=
  (digitRunsAux v.toList []).map runVal

/-- Python tuple `<` on integer tuples: lexicographic, a strict prefix is
smaller. -/
def tupleLt : List Nat → List Nat → Bool
  | _, [] => false
  | [], _ :: _ => true
  | a :: as, b :: bs =>
    if a < b then true else if b < a then false else tupleLt as bs

/-- plugin.py `normalize_version`: `version.split("-")[0]`, the part of the
string before the first dash. -/
def normalize_version (v : String) : String :=
  String.mk (v.toList.takeWhile (fun ch => ch != '-'))

/-- `os.path.basename`: the part of the path after the last slash. -/
def basename (u : String) : String :=
  String.mk ((u.toList.reverse.takeWhile (fun ch => ch != '/')).reverse)

/-- Python truthiness of an optional string: `None` and `""` are falsy. -/
def pyTruthy : Option String → Bool
  | none => false
  | some s => s != ""

/-- Core of `fnmatch`-style glob matching for the cleanup glob patterns:
literal characters, `?` (any one character) and `*` (any run).  Fuel-indexed
structural recursion; fuel `|pat| + |s| + 1` always suffices because every
recursive call shrinks the combined length. -/
def globMatchFuel : Nat → List Char → List Char → Bool
  | 0, _, _ => false
  | _ + 1, [], [] => true
  | k + 1, '*' :: ps, [] => globMatchFuel k ps []
  | k + 1, '*' :: ps, c :: cs =>
    globMatchFuel k ps (c :: cs) || globMatchFuel k ('*' :: ps) cs
  | k + 1, '?' :: ps, _ :: cs => globMatchFuel k ps cs
  | k + 1, p :: ps, c :: cs => (p == c) && globMatchFuel k ps cs
  | _ + 1, _ :: _, [] => false
  | _ + 1, [], _ :: _ => false

/-- Whether a filename matches a cleanup glob pattern. -/
def globMatch (pat fname : String) : Bool :=
  globMatchFuel (pat.length + fname.length + 1) pat.toList fname.toList

/-- Character class `[a-zA-Z0-9-]` of the filename regex's name group. -/
def cls1 (ch : Char) : Bool := ch.isAlphanum || ch == '-'

/-- Character class `[0-9.-]` of the filename regex's version group. -/
def cls2 (ch : Char) : Bool := ch.isDigit || ch == '-' || ch == '.'

/-- ASCII word characters, the class of the regex escape for word chars. -/
def wordChar (ch : Char) : Bool := ch.isAlphanum || ch == '_'

/-- Whether the remaining input is exactly the archive-extension alternative
at the end of the filename regex. -/
def suffixOK (s : List Char) : Bool := s == ".jar".toList || s == ".zip".toList

/-- Backtracking search for the optional tag's word-char run length: some
length between 1 and `k` after which the archive extension follows. -/
def tagTry : Nat → List Char → Bool
  | 0, _ => false
  | k + 1, s => suffixOK (s.drop (k + 1)) || tagTry k s

/-- After the version group: either the archive extension directly, or the
optional non-numeric tag (dash plus word chars) and then the extension. -/
def optTagSuffix (s : List Char) : Bool :=
  suffixOK s ||
    match s with
    | '-' :: rest => tagTry ((rest.takeWhile wordChar).length) rest
    | _ => false

/-- Greedy-with-backtracking choice of the version group's length: the
longest prefix length (at most `m`, at least 1) of the `[0-9.-]` run after
which the rest of the regex matches.  Returns the version group. -/
def g2Try : Nat → List Char → Option (List Char)
  | 0, _ => none
  | m + 1, s =>
    if optTagSuffix (s.drop (m + 1)) then some (s.take (m + 1)) else g2Try m s

/-- Greedy-with-backtracking choice of the name group's length: the longest
prefix length (at most `n`, at least 1) followed by a literal dash after
which the version group and the rest match.  Returns the version group. -/
def g1Try : Nat → List Char → Option (List Char)
  | 0, _ => none
  | n + 1, s =>
    match s.drop (n + 1) with
    | '-' :: rest =>
      match g2Try ((rest.takeWhile cls2).length) rest with
      | some g2 => some g2
      | none => g1Try n s
    | _ => g1Try n s

/-- The version group of the anchored filename regex (name group, dash,
version group, optional dash-tag, archive extension, end of string) applied
to the lower-cased basename, or `none` when the filename does not fit. -/
def filenameVersion (fname : String) : Option String :=
  let s := fname.toList.map Char.toLower
  (g1Try ((s.takeWhile cls1).length) s).map String.mk

/-- Inner loop of `get_installed_version` for one glob pattern: the version
parsed from the first directory entry that matches the pattern and fits the
filename regex; entries that match the glob but do not fit are skipped. -/
def findInPattern (pat : String) : List String → Option String
  | [] => none
  | f :: fs =>
    if globMatch pat f then
      match filenameVersion f with
      | some v => some v
      | none => findInPattern pat fs
    else findInPattern pat fs

/-- plugin.py `get_installed_version`: scan the cleanup glob patterns in
declared order over the target directory's entries, returning the version of
the first filename that matches a glob and fits the filename regex. -/
def get_installed_version (files : List String) : List String → Option String
  | [] => none
  | p :: ps =>
    match findInPattern p files with
    | some v => some v
    | none => get_installed_version files ps

/-- Dot-separated numeric continuation groups of the URL version regex:
consumes as many `.`-digits groups as possible, returning the consumed
characters and the remainder.  Fuel-indexed; each step consumes at least two
characters, so fuel `|s| + 1` suffices. -/
def dotGroupsF : Nat → List Char → List Char × List Char
  | 0, s => ([], s)
  | k + 1, s =>
    match s with
    | '.' :: rest =>
      let run := rest.takeWhile Char.isDigit
      if run.isEmpty then ([], s)
      else
        let next := dotGroupsF k (rest.drop run.length)
        ('.' :: (run ++ next.1), next.2)
    | _ => ([], s)

/-- Match of the URL version regex (digits, then one or more `.`-digits
groups, then a greedy run of word chars and dashes) anchored at the start of
the input, returning the whole match. -/
def matchVersionAt (s : List Char) : Option (List Char) :=
  let d0 := s.takeWhile Char.isDigit
  if d0.isEmpty then none
  else
    let rest := s.drop d0.length
    let groups := dotGroupsF (rest.length + 1) rest
    if groups.1.isEmpty then none
    else some (d0 ++ groups.1 ++ groups.2.takeWhile (fun ch => wordChar ch || ch == '-'))

/-- Leftmost match of the URL version regex anywhere in the input. -/
def searchVersionAux : List Char → Option (List Char)
  | [] => none
  | ch :: rest =>
    match matchVersionAt (ch :: rest) with
    | some m => some m
    | none => searchVersionAux rest

/-- `re.search` of the dotted-numeric-version pattern over a string. -/
def searchVersion (s : String) : Option String :=
  (searchVersionAux s.toList).map String.mk

/-- plugin.py `get_config_version`: the dotted numeric version substring of
the configured URL when the URL is present, nonempty and contains one;
otherwise the plugin's own name. -/
def get_config_version (url : Option String) (plugin_name : String) : String :=
  match url with
  | some u =>
    if u == "" then plugin_name
    else
      match searchVersion u with
      | some v => v
      | none => plugin_name
  | none => plugin_name

/-- Deletion pass of update/sync: for each cleanup glob in order, remove
every remaining directory entry matching it. -/
def removeGlobs (files globs : List String) : List String :=
  globs.foldl (fun fs p => fs.filter (fun f => !(globMatch p f))) files

/-- Outcome of a Python computation that may raise an uncaught TypeError. -/
inductive PyResult (α : Type) where
  | ok : α → PyResult α
  | typeError : PyResult α
deriving DecidableEq

/-- Per-target effects of one iteration of `update_plugin`'s target loop:
the directory contents afterwards, the URL whose download was attempted (if
any), and the URL persisted into the plugin's config entry (if any). -/
structure UpdateResult where
  files : List String
  downloaded : Option String
  configUrl : Option String
deriving DecidableEq

/-- plugin.py `update_plugin`, one target directory.  `latest_url` is the
result of the remote lookup, `dlOk` whether the download succeeds.  Mirrors
the source: `need_update` is computed as installed-absent or
`version_tuple(normalized_installed) < version_tuple(normalized_latest)`,
where `version_tuple` applied to Python `None` raises a TypeError; the
update branch runs only when `need_update` holds and `latest_url` is truthy,
deletes the cleanup-glob matches, downloads, and on success writes the new
URL back to the config; download failure skips the config write. -/
def update_target (plugin_name : String) (globs files : List String)
    (latest_url : Option String) (dlOk : Bool) : PyResult UpdateResult :=
  let installed := get_installed_version files globs
  let latest_version := latest_url.map fun u => get_config_version (some u) plugin_name
  let nInst := installed.map normalize_version
  let nLat := latest_version.map normalize_version
  let needUpdateR : PyResult Bool :=
    match nInst with
    | none => .ok true
    | some i =>
      match nLat with
      | none => .typeError
      | some l => .ok (tupleLt (version_tuple i) (version_tuple l))
  match needUpdateR with
  | .typeError => .typeError
  | .ok needUpdate =>
    if needUpdate && pyTruthy latest_url then
      match latest_url with
      | some u =>
        let files2 := removeGlobs files globs
        if dlOk then .ok ⟨files2 ++ [basename u], some u, some u⟩
        else .ok ⟨files2, some u, none⟩
      | none => .ok ⟨files, none, none⟩
    else .ok ⟨files, none, none⟩

/-- Per-target effects of one iteration of `sync_plugin`'s target loop. -/
structure SyncResult where
  files : List String
  downloaded : Option String
deriving DecidableEq

/-- plugin.py `sync_plugin`, one target directory: compare the normalized
installed version with the normalized config version (Python `!=` treats a
missing installed version as unequal to any string); on mismatch delete the
cleanup-glob matches and download exactly the configured URL; otherwise do
nothing. -/
def sync_target (config_version url : String) (globs files : List String)
    (dlOk : Bool) : SyncResult :=
  let installed := get_installed_version files globs
  let nInst := installed.map normalize_version
  let nCfg := normalize_version config_version
  if nInst = some nCfg then ⟨files, none⟩
  else
    let files2 := removeGlobs files globs
    if dlOk then ⟨files2 ++ [basename url], some url⟩
    else ⟨files2, some url⟩

/-- Whole-plugin result of `sync_plugin`: whether the plugin was skipped for
lack of a configured URL, and the per-target effects. -/
structure SyncPluginResult where
  skipped : Bool
  targets : List SyncResult
deriving DecidableEq

/-- plugin.py `sync_plugin`: skip when the config has no (nonempty) URL;
otherwise process every target directory against the configured URL and the
version embedded in it.  The first parameter stands for the behaviour of the
remote version resolver available to the process; the source never invokes
it in sync mode, so the definition does not consult it. -/
def sync_plugin (_remote : Option String) (plugin_name : String)
    (cfgUrl : Option String) (globs : List String)
    (targetDirs : List (List String)) (dlOk : Bool) : SyncPluginResult :=
  match cfgUrl with
  | none => ⟨true, []⟩
  | some url =>
    if url == "" then ⟨true, []⟩
    else
      let cfgVer := get_config_version (some url) plugin_name
      ⟨false, targetDirs.map fun files => sync_target cfgVer url globs files dlOk⟩

/-- Report category logged by `discover_plugin` for one target. -/
inductive DiscoverMsg where
  | notInstalledUpToDate : String → DiscoverMsg
  | notInstalled : String → Option String → DiscoverMsg
  | updateAvailable : String → Option String → DiscoverMsg
  | configMismatch : String → String → DiscoverMsg
  | upToDate : String → DiscoverMsg
deriving DecidableEq

/-- Per-target effects of one iteration of `discover_plugin`'s target loop:
whether `_ensure_dir` created the target directory, the directory contents
afterwards, the URL downloaded (if any), the URL written to the config (if
any), and the report logged. -/
structure DiscoverResult where
  dirCreated : Bool
  files : List String
  downloaded : Option String
  configUrl : Option String
  msg : DiscoverMsg
deriving DecidableEq

/-- plugin.py `discover_plugin`, one target directory: `_ensure_dir` creates
the target directory when missing, then the installed, latest and config
versions are compared and a report is logged; no file is deleted, nothing is
downloaded and the config is not written. -/
def discover_target (config_version : String) (latest_version : Option String)
    (dirExists : Bool) (globs files : List String) : DiscoverResult :=
  let installed := get_installed_version files globs
  let msg :=
    match installed with
    | none =>
      if latest_version = some config_version then
        DiscoverMsg.notInstalledUpToDate config_version
      else DiscoverMsg.notInstalled config_version latest_version
    | some iv =>
      let ni := normalize_version iv
      let nl := latest_version.map normalize_version
      let nc := normalize_version config_version
      if some ni ≠ nl then DiscoverMsg.updateAvailable ni nl
      else if ni ≠ nc then DiscoverMsg.configMismatch ni nc
      else DiscoverMsg.upToDate ni
  ⟨!dirExists, files, none, none, msg⟩

/-- Behaviour of the three remote lookup services consulted by
plugin_url.py: what each strategy would return for a candidate source URL. -/
structure Oracles where
  modrinth : String → Option String
  github : String → Option String
  hangar : String → Option String

/-- One invocation of a lookup strategy on a candidate source URL. -/
inductive StratCall where
  | modrinth : String → StratCall
  | github : String → StratCall
  | hangar : String → StratCall
deriving DecidableEq

/-- Whether `needle` occurs as a contiguous substring of `hay`. -/
def containsSub (needle : List Char) : List Char → Bool
  | [] => needle.isEmpty
  | c :: rest => needle.isPrefixOf (c :: rest) || containsSub needle rest

/-- plugin_url.py `get_latest` loop body: pick the strategy by domain
substring of the candidate URL (mod registry, release hosting, plugin
hosting, in that test order), returning its result and recording the single
strategy invoked; a URL matching no domain yields no result and no call. -/
def dispatch (o : Oracles) (url : String) : Option String × List StratCall :=
  if containsSub "modrinth.com".toList url.toList then
    (o.modrinth url, [StratCall.modrinth url])
  else if containsSub "github.com".toList url.toList then
    (o.github url, [StratCall.github url])
  else if containsSub "hangar.papermc.io".toList url.toList then
    (o.hangar url, [StratCall.hangar url])
  else (none, [])

/-- plugin_url.py `get_latest` over the candidate URL list of a plugin that
is present in the source mapping: try each candidate in declared order and
return the first non-empty result, together with the trace of strategy
invocations made. -/
def get_latest (o : Oracles) : List String → Option String × List StratCall
  | [] => (none, [])
  | u :: us =>
    let d := dispatch o u
    match d.1 with
    | some r => (some r, d.2)
    | none =>
      let rest := get_latest o us
      (rest.1, d.2 ++ rest.2)

/-- First non-none element of a list of optional results. -/
def firstSome : List (Option String) → Option String
  | [] => none
  | o? :: rest =>
    match o? with
    | some x => some x
    | none => firstSome rest

lemma tupleLt_nil_left (t : List Nat) (h : t ≠ []) : tupleLt [] t = true := by
  cases t with
  | nil => exact absurd rfl h
  | cons a as => rfl

lemma digitRunsAux_no_digit (s : List Char) (acc : List Char)
    (h : ∀ ch ∈ s, ch.isDigit = false) :
    digitRunsAux s acc = digitRunsAux [] acc := by
  induction s generalizing acc with
  | nil => rfl
  | cons ch rest ih =>
    have hch : ch.isDigit = false := h ch (List.mem_cons_self ch rest)
    have hrest : ∀ c ∈ rest, c.isDigit = false := fun c hc => h c (List.mem_cons_of_mem ch hc)
    by_cases hacc : acc.isEmpty = true
    · simp only [digitRunsAux, hch, Bool.false_eq_true, if_false, hacc, if_true]
      exact ih [] hrest
    · simp only [digitRunsAux, hch, Bool.false_eq_true, if_false, hacc]
      have := ih [] hrest
      simp only [digitRunsAux] at this
      simp [this]

lemma digitRunsAux_append_no_digit (c s : List Char) (acc : List Char)
    (h : ∀ ch ∈ s, ch.isDigit = false) :
    digitRunsAux (c ++ s) acc = digitRunsAux c acc := by
  induction c generalizing acc with
  | nil => simpa using digitRunsAux_no_digit s acc h
  | cons ch rest ih =>
    simp only [List.cons_append, digitRunsAux]
    by_cases hch : ch.isDigit = true
    · simp [hch, ih]
    · simp only [Bool.not_eq_true] at hch
      by_cases hacc : acc.isEmpty = true
      · simp [hch, hacc, ih]
      · simp [hch, hacc, ih]

lemma mem_takeWhile_mem {p : Char → Bool} {l : List Char} {ch : Char}
    (h : ch ∈ l.takeWhile p) : ch ∈ l := by
  induction l with
  | nil => simp at h
  | cons a as ih =>
    by_cases ha : p a = true
    · simp only [List.takeWhile, ha] at h
      rcases List.mem_cons.mp h with h1 | h2
      · simp [h1]
      · exact List.mem_cons_of_mem a (ih h2)
    · simp only [List.takeWhile] at h
      rw [Bool.not_eq_true] at ha
      simp [ha] at h

lemma version_tuple_no_digit (v : String) (h : ∀ ch ∈ v.toList, ch.isDigit = false) :
    version_tuple v = [] := by
  unfold version_tuple
  rw [digitRunsAux_no_digit v.toList [] h]
  rfl

lemma toList_normalize (v : String) :
    (normalize_version v).toList = v.toList.takeWhile (fun ch => ch != '-') := rfl

lemma normalize_no_digit (v : String) (h : ∀ ch ∈ v.toList, ch.isDigit = false) :
    ∀ ch ∈ (normalize_version v).toList, ch.isDigit = false := by
  intro ch hch
  rw [toList_normalize] at hch
  exact h ch (mem_takeWhile_mem hch)

lemma mem_removeGlobs (f : String) (files globs : List String) :
    f ∈ removeGlobs files globs ↔ f ∈ files ∧ ∀ p ∈ globs, globMatch p f = false := by
  induction globs generalizing files with
  | nil => simp [removeGlobs]
  | cons p ps ih =>
    unfold removeGlobs at ih ⊢
    rw [List.foldl_cons, ih]
    simp only [List.mem_filter, List.mem_cons]
    constructor
    · rintro ⟨⟨hf, hp⟩, hps⟩
      refine ⟨hf, ?_⟩
      intro q hq
      rcases hq with hq | hq
      · subst hq
        simpa using hp
      · exact hps q hq
    · rintro ⟨hf, hall⟩
      refine ⟨⟨hf, ?_⟩, fun q hq => hall q (Or.inr hq)⟩
      simp [hall p (Or.inl rfl)]

lemma findInPattern_none_iff (pat : String) (files : List String) :
    findInPattern pat files = none ↔
      ∀ f ∈ files, globMatch pat f = true → filenameVersion f = none := by
  induction files with
  | nil => simp [findInPattern]
  | cons f fs ih =>
    unfold findInPattern
    by_cases hg : globMatch pat f = true
    · cases hv : filenameVersion f with
      | none =>
        simp only [hg, if_true, hv, ih]
        constructor
        · intro hall g hgm
          rcases List.mem_cons.mp hgm with h1 | h2
          · intro _; subst h1; exact hv
          · exact hall g h2
        · exact fun hall g hg2 => hall g (List.mem_cons_of_mem f hg2)
      | some v =>
        simp only [hg, if_true, hv]
        constructor
        · intro h; exact absurd h (by simp)
        · intro hall
          have := hall f (List.mem_cons_self f fs) hg
          rw [hv] at this
          exact absurd this (by simp)
    · rw [Bool.not_eq_true] at hg
      simp only [hg, Bool.false_eq_true, if_false, ih]
      constructor
      · intro hall g hgm
        rcases List.mem_cons.mp hgm with h1 | h2
        · subst h1; intro hc; rw [hg] at hc; exact absurd hc (by simp)
        · exact hall g h2
      · exact fun hall g hg2 => hall g (List.mem_cons_of_mem f hg2)

lemma findInPattern_head (pat : String) (files : List String) :
    findInPattern pat files =
      ((files.filter fun f => globMatch pat f && (filenameVersion f).isSome).head?).bind
        filenameVersion := by
  induction files with
  | nil => simp [findInPattern]
  | cons f fs ih =>
    unfold findInPattern
    by_cases hg : globMatch pat f = true
    · cases hv : filenameVersion f with
      | none => simp [hg, hv, ih, List.filter_cons]
      | some v => simp [hg, hv, List.filter_cons]
    · rw [Bool.not_eq_true] at hg
      simp [hg, ih, List.filter_cons]

lemma get_installed_firstSome (files globs : List String) :
    get_installed_version files globs =
      firstSome (globs.map fun p => findInPattern p files) := by
  induction globs with
  | nil => rfl
  | cons p ps ih =>
    unfold get_installed_version
    cases h : findInPattern p files with
    | none => simp [firstSome, h, ih]
    | some v => simp [firstSome, h]

lemma firstSome_none_iff (l : List (Option String)) :
    firstSome l = none ↔ ∀ x ∈ l, x = none := by
  induction l with
  | nil => simp [firstSome]
  | cons o? rest ih =>
    cases o? with
    | none => simp [firstSome, ih]
    | some x => simp [firstSome]

lemma get_installed_none_iff (files globs : List String) :
    get_installed_version files globs = none ↔
      ∀ p ∈ globs, ∀ f ∈ files, globMatch p f = true → filenameVersion f = none := by
  rw [get_installed_firstSome, firstSome_none_iff]
  constructor
  · intro h p hp
    have := h (findInPattern p files) (List.mem_map_of_mem _ hp)
    exact (findInPattern_none_iff p files).mp this
  · intro h x hx
    rcases List.mem_map.mp hx with ⟨p, hp, rfl⟩
    exact (findInPattern_none_iff p files).mpr (h p hp)

lemma takeWhile_append_dashsep (c s : List Char) (h : s = [] ∨ ∃ t, s = '-' :: t) :
    (c ++ s).takeWhile (fun ch => ch != '-') = c.takeWhile (fun ch => ch != '-') := by
  induction c with
  | nil =>
    rcases h with h | ⟨t, ht⟩
    · simp [h]
    · simp [ht, List.takeWhile]
  | cons a as ih =>
    by_cases ha : a = '-'
    · subst ha
      simp [List.takeWhile]
    · have ha2 : (a != '-') = true := by simp [ha]
      simp only [List.cons_append, List.takeWhile, ha2]
      rw [show as.append s = as ++ s from rfl, ih]

/-- C8: the spec promises that no exception escapes in normal operation, in
particular that update mode completes when remote resolution returns none
while a version is installed.  The code instead evaluates
`version_tuple(normalize_version(None))`, raising an uncaught TypeError:
with `foo-1.0.jar` installed and no resolved latest URL, `update_plugin`
raises. -/
theorem c8_update_typeerror :
    get_installed_version ["foo-1.0.jar"] ["*.jar"] = some "1.0" ∧
    update_target "foo" ["*.jar"] ["foo-1.0.jar"] none true = PyResult.typeError := by
  constructor
  · decide
  · decide

/-- C1: with a resolved latest URL present, the update branch of
`update_plugin` (delete cleanup-glob matches, download the artifact, persist
the new URL) is taken if and only if the installed version is absent or its
numeric tuple is lexicographically strictly below the latest version's
numeric tuple; otherwise nothing is deleted or downloaded and the config is
unchanged. -/
theorem c1_update_branch_iff (plugin_name u : String) (globs files : List String)
    (hu : u ≠ "") :
    (update_target plugin_name globs files (some u) true =
        PyResult.ok ⟨removeGlobs files globs ++ [basename u], some u, some u⟩
      ↔ (get_installed_version files globs = none ∨
          ∃ iv, get_installed_version files globs = some iv ∧
            tupleLt (version_tuple (normalize_version iv))
              (version_tuple (normalize_version (get_config_version (some u) plugin_name))) =
              true))
  ∧ (∀ iv, get_installed_version files globs = some iv →
      tupleLt (version_tuple (normalize_version iv))
        (version_tuple (normalize_version (get_config_version (some u) plugin_name))) =
        false →
      update_target plugin_name globs files (some u) true =
        PyResult.ok ⟨files, none, none⟩) := by
  have hpt : pyTruthy (some u) = true := by simp [pyTruthy, hu]
  constructor
  · cases hinst : get_installed_version files globs with
    | none => simp [update_target, hinst, hpt]
    | some iv =>
      cases hlt : tupleLt (version_tuple (normalize_version iv))
          (version_tuple (normalize_version (get_config_version (some u) plugin_name))) with
      | true => simp [update_target, hinst, hpt, hlt]
      | false => simp [update_target, hinst, hpt, hlt]
  · intro iv hinst hlt
    simp [update_target, hinst, hpt, hlt]

/-- C1 witness: concrete runs of both directions — an installed `1.0` below
a remote `1.2` triggers the branch, and an installed `1.2` equal to the
remote version leaves everything unchanged. -/
theorem c1_update_branch_iff_witness :
    update_target "foo" ["*.jar"] ["foo-1.0.jar"] (some "https://ex/foo-1.2.jar") true =
      PyResult.ok ⟨["foo-1.2.jar"], some "https://ex/foo-1.2.jar",
        some "https://ex/foo-1.2.jar"⟩ ∧
    update_target "foo" ["*.jar"] ["foo-1.2.jar"] (some "https://ex/foo-1.2.jar") true =
      PyResult.ok ⟨["foo-1.2.jar"], none, none⟩ := by
  constructor
  · have h := (c1_update_branch_iff "foo" "https://ex/foo-1.2.jar" ["*.jar"]
      ["foo-1.0.jar"] (by decide)).1.mpr
      (Or.inr ⟨"1.0", by decide, by decide⟩)
    exact h.trans (by decide)
  · exact (c1_update_branch_iff "foo" "https://ex/foo-1.2.jar" ["*.jar"]
      ["foo-1.2.jar"] (by decide)).2 "1.2" (by decide) (by decide)

lemma update_target_branch (plugin_name u : String) (globs files : List String)
    (dlOk : Bool) (hu : u ≠ "")
    (h : get_installed_version files globs = none ∨
        ∃ iv, get_installed_version files globs = some iv ∧
          tupleLt (version_tuple (normalize_version iv))
            (version_tuple (normalize_version (get_config_version (some u) plugin_name))) =
            true) :
    update_target plugin_name globs files (some u) dlOk =
      if dlOk then
        PyResult.ok ⟨removeGlobs files globs ++ [basename u], some u, some u⟩
      else PyResult.ok ⟨removeGlobs files globs, some u, none⟩ := by
  have hpt : pyTruthy (some u) = true := by simp [pyTruthy, hu]
  rcases h with hinst | ⟨iv, hinst, hlt⟩
  · cases dlOk <;> simp [update_target, hinst, hpt]
  · cases dlOk <;> simp [update_target, hinst, hlt, hpt]

lemma sync_target_mismatch (config_version url : String) (globs files : List String)
    (dlOk : Bool)
    (h : (get_installed_version files globs).map normalize_version ≠
        some (normalize_version config_version)) :
    sync_target config_version url globs files dlOk =
      if dlOk then ⟨removeGlobs files globs ++ [basename url], some url⟩
      else ⟨removeGlobs files globs, some url⟩ := by
  cases dlOk <;> simp [sync_target, h]

lemma sync_target_downloaded (config_version url : String) (globs files : List String)
    (dlOk : Bool) :
    (sync_target config_version url globs files dlOk).downloaded = none ∨
      (sync_target config_version url globs files dlOk).downloaded = some url := by
  by_cases h : (get_installed_version files globs).map normalize_version =
      some (normalize_version config_version)
  · simp [sync_target, h]
  · cases dlOk <;> simp [sync_target, h]

/-- C5: a version string with no digit run has the empty numeric tuple,
the empty tuple is strictly below every non-empty tuple, and therefore an
installed version without digits is treated as outdated in update mode
whenever the resolved latest version has a numeric component, triggering the
delete-and-redownload branch. -/
theorem c5_no_digit_always_outdated (v plugin_name u : String)
    (globs files : List String) (hv : ∀ ch ∈ v.toList, ch.isDigit = false) :
    version_tuple v = [] ∧
    (∀ t : List Nat, t ≠ [] → tupleLt (version_tuple v) t = true) ∧
    (get_installed_version files globs = some v →
      version_tuple (normalize_version (get_config_version (some u) plugin_name)) ≠ [] →
      u ≠ "" →
      update_target plugin_name globs files (some u) true =
        PyResult.ok ⟨removeGlobs files globs ++ [basename u], some u, some u⟩) := by
  have hvt : version_tuple v = [] := version_tuple_no_digit v hv
  refine ⟨hvt, ?_, ?_⟩
  · intro t ht
    rw [hvt]
    exact tupleLt_nil_left t ht
  · intro hinst hlat hu
    have hnv : version_tuple (normalize_version v) = [] :=
      version_tuple_no_digit _ (normalize_no_digit v hv)
    have hlt : tupleLt (version_tuple (normalize_version v))
        (version_tuple (normalize_version (get_config_version (some u) plugin_name))) =
        true := by
      rw [hnv]
      exact tupleLt_nil_left _ hlat
    have h := update_target_branch plugin_name u globs files true hu
      (Or.inr ⟨v, hinst, hlt⟩)
    simpa using h

/-- C5 witness: the installed file `foo-..jar` parses to the digit-free
version `"."`, which update mode replaces by the remote `1.2` artifact. -/
theorem c5_no_digit_always_outdated_witness :
    get_installed_version ["foo-..jar"] ["*.jar"] = some "." ∧
    update_target "foo" ["*.jar"] ["foo-..jar"] (some "https://ex/foo-1.2.jar") true =
      PyResult.ok ⟨["foo-1.2.jar"], some "https://ex/foo-1.2.jar",
        some "https://ex/foo-1.2.jar"⟩ := by
  constructor
  · decide
  · have h := (c5_no_digit_always_outdated "." "foo" "https://ex/foo-1.2.jar"
      ["*.jar"] ["foo-..jar"] (by decide)).2.2 (by decide) (by decide) (by decide)
    exact h.trans (by decide)

/-- C10: in update and sync modes the cleanup-glob matches are deleted
before the download, and a failed download does not restore them: the
target keeps only the survivors of the deletion pass, the config is not
rewritten, and no file matching a cleanup glob remains. -/
theorem c10_delete_not_restored :
    (∀ plugin_name u : String, ∀ globs files : List String,
      u ≠ "" →
      (get_installed_version files globs = none ∨
        ∃ iv, get_installed_version files globs = some iv ∧
          tupleLt (version_tuple (normalize_version iv))
            (version_tuple (normalize_version (get_config_version (some u) plugin_name))) =
            true) →
      update_target plugin_name globs files (some u) false =
        PyResult.ok ⟨removeGlobs files globs, some u, none⟩)
  ∧ (∀ config_version url : String, ∀ globs files : List String,
      (get_installed_version files globs).map normalize_version ≠
          some (normalize_version config_version) →
      sync_target config_version url globs files false =
        ⟨removeGlobs files globs, some url⟩)
  ∧ (∀ f : String, ∀ files globs : List String,
      f ∈ files → (∃ p ∈ globs, globMatch p f = true) →
      f ∉ removeGlobs files globs) := by
  refine ⟨?_, ?_, ?_⟩
  · intro plugin_name u globs files hu h
    have := update_target_branch plugin_name u globs files false hu h
    simpa using this
  · intro config_version url globs files h
    have := sync_target_mismatch config_version url globs files false h
    simpa using this
  · intro f files globs hf ⟨p, hp, hm⟩ hmem
    have := ((mem_removeGlobs f files globs).mp hmem).2 p hp
    rw [hm] at this
    exact absurd this (by simp)

/-- C10 witness: with `foo-1.0.jar` installed and a failing download, both
update and sync leave the directory emptied of the old artifact and the
config untouched. -/
theorem c10_delete_not_restored_witness :
    update_target "foo" ["*.jar"] ["foo-1.0.jar"] (some "https://ex/foo-1.2.jar") false =
      PyResult.ok ⟨[], some "https://ex/foo-1.2.jar", none⟩ ∧
    sync_target "1.2" "https://ex/foo-1.2.jar" ["*.jar"] ["foo-1.0.jar"] false =
      ⟨[], some "https://ex/foo-1.2.jar"⟩ ∧
    "foo-1.0.jar" ∉ removeGlobs ["foo-1.0.jar"] ["*.jar"] := by
  refine ⟨?_, ?_, ?_⟩
  · have h := c10_delete_not_restored.1 "foo" "https://ex/foo-1.2.jar" ["*.jar"]
      ["foo-1.0.jar"] (by decide) (Or.inr ⟨"1.0", by decide, by decide⟩)
    exact h.trans (by decide)
  · have h := c10_delete_not_restored.2.1 "1.2" "https://ex/foo-1.2.jar" ["*.jar"]
      ["foo-1.0.jar"] (by decide)
    exact h.trans (by decide)
  · exact c10_delete_not_restored.2.2 "foo-1.0.jar" ["foo-1.0.jar"] ["*.jar"]
      (by decide) ⟨"*.jar", by decide, by decide⟩

/-- C2: the resolver tries the candidate URLs of a mapped plugin in declared
order, each consulting exactly the strategy selected by its domain; it
returns the first non-empty result, invokes no strategy after the first
success, and returns none when every candidate yields nothing. -/
theorem c2_resolver_short_circuit (o : Oracles) :
    (∀ us : List String,
      (get_latest o us).1 = firstSome (us.map fun u => (dispatch o u).1))
  ∧ (∀ u : String, ∀ us : List String, ((dispatch o u).1).isSome = true →
      get_latest o (u :: us) = ((dispatch o u).1, (dispatch o u).2))
  ∧ (∀ us : List String, (∀ u ∈ us, (dispatch o u).1 = none) →
      (get_latest o us).1 = none) := by
  have h1 : ∀ us : List String,
      (get_latest o us).1 = firstSome (us.map fun u => (dispatch o u).1) := by
    intro us
    induction us with
    | nil => rfl
    | cons u us ih =>
      cases hd : (dispatch o u).1 with
      | none => simp [get_latest, hd, firstSome, ih]
      | some r => simp [get_latest, hd, firstSome]
  refine ⟨h1, ?_, ?_⟩
  · intro u us h
    cases hd : (dispatch o u).1 with
    | none => rw [hd] at h; exact absurd h (by simp)
    | some r => simp [get_latest, hd]
  · intro us hall
    rw [h1, firstSome_none_iff]
    intro x hx
    rcases List.mem_map.mp hx with ⟨u, hu, rfl⟩
    exact hall u hu

/-- C2 witness: with a mod-registry candidate that resolves, the resolver
returns its artifact and the trace records the single mod-registry call —
the release-hosting and plugin-hosting candidates are never consulted. -/
theorem c2_resolver_short_circuit_witness :
    get_latest
        ⟨fun _ => some "https://cdn/m-1.0.jar", fun _ => some "https://gh/g-2.0.jar",
          fun _ => some "https://hc/h-3.0.jar"⟩
        ["https://modrinth.com/plugin/x", "https://github.com/a/b",
          "https://hangar.papermc.io/a/b"] =
      (some "https://cdn/m-1.0.jar", [StratCall.modrinth "https://modrinth.com/plugin/x"]) := by
  have h := (c2_resolver_short_circuit
      ⟨fun _ => some "https://cdn/m-1.0.jar", fun _ => some "https://gh/g-2.0.jar",
        fun _ => some "https://hc/h-3.0.jar"⟩).2.1
    "https://modrinth.com/plugin/x"
    ["https://github.com/a/b", "https://hangar.papermc.io/a/b"] (by decide)
  exact h.trans (by decide)

/-- C3: sync mode never consults the remote resolver — its whole-plugin
result is identical under any two behaviours of the remote sources — and
any download it performs fetches exactly the configured URL. -/
theorem c3_sync_remote_independent :
    (∀ r1 r2 : Option String, ∀ plugin_name : String, ∀ cfgUrl : Option String,
      ∀ globs : List String, ∀ dirs : List (List String), ∀ dlOk : Bool,
      sync_plugin r1 plugin_name cfgUrl globs dirs dlOk =
        sync_plugin r2 plugin_name cfgUrl globs dirs dlOk)
  ∧ (∀ r : Option String, ∀ plugin_name url : String, ∀ globs : List String,
      ∀ dirs : List (List String), ∀ dlOk : Bool, ∀ s : SyncResult,
      s ∈ (sync_plugin r plugin_name (some url) globs dirs dlOk).targets →
      s.downloaded = none ∨ s.downloaded = some url) := by
  constructor
  · intro r1 r2 plugin_name cfgUrl globs dirs dlOk
    rfl
  · intro r plugin_name url globs dirs dlOk s hs
    unfold sync_plugin at hs
    by_cases hurl : url == ""
    · simp [hurl] at hs
    · simp only [hurl, Bool.false_eq_true, if_false] at hs
      rcases List.mem_map.mp hs with ⟨files, _, rfl⟩
      exact sync_target_downloaded _ url globs files dlOk

/-- C3 witness: a sync run over one target behaves identically whether the
remote environment would offer an alternative artifact or nothing, and the
member target's download is exactly the configured URL. -/
theorem c3_sync_remote_independent_witness :
    sync_plugin (some "https://other/alt-9.9.jar") "foo" (some "https://ex/foo-1.2.jar")
        ["*.jar"] [["foo-1.0.jar"]] true =
      sync_plugin none "foo" (some "https://ex/foo-1.2.jar")
        ["*.jar"] [["foo-1.0.jar"]] true ∧
    ((SyncResult.mk ["foo-1.2.jar"] (some "https://ex/foo-1.2.jar")).downloaded = none ∨
      (SyncResult.mk ["foo-1.2.jar"] (some "https://ex/foo-1.2.jar")).downloaded =
        some "https://ex/foo-1.2.jar") := by
  constructor
  · exact c3_sync_remote_independent.1 (some "https://other/alt-9.9.jar") none "foo"
      (some "https://ex/foo-1.2.jar") ["*.jar"] [["foo-1.0.jar"]] true
  · exact c3_sync_remote_independent.2 none "foo" "https://ex/foo-1.2.jar" ["*.jar"]
      [["foo-1.0.jar"]] true ⟨["foo-1.2.jar"], some "https://ex/foo-1.2.jar"⟩ (by decide)

/-- C4 counterexample: discover mode does mutate the filesystem — when the
target plugins directory is missing, `_ensure_dir` creates it before the
comparison, so a directory is created contrary to the claim. -/
theorem c4_discover_creates_dir :
    (discover_target "1.2" (some "1.2") false ["*.jar"] []).dirCreated = true := by
  decide

/-- C4 amended: discover mode deletes no file, downloads nothing and never
writes the config — the directory listing is returned unchanged — but it
does create the target plugins directory when it is missing (and appends to
log files), so the filesystem is not left entirely untouched. -/
theorem c4_discover_frame (config_version : String) (latest_version : Option String)
    (dirExists : Bool) (globs files : List String) :
    (discover_target config_version latest_version dirExists globs files).files = files ∧
    (discover_target config_version latest_version dirExists globs files).downloaded = none ∧
    (discover_target config_version latest_version dirExists globs files).configUrl = none ∧
    (discover_target config_version latest_version dirExists globs files).dirCreated =
      !dirExists := by
  exact ⟨rfl, rfl, rfl, rfl⟩

/-- C6 counterexample: `"1.2"` and `"1.2x"` differ only by the non-numeric
suffix `"x"` and have identical digit-run sequences, yet their
normalizations differ, because `normalize_version` only strips a suffix
introduced by a dash — refuting the claimed equivalence. -/
theorem c6_suffix_counterexample :
    "1.2x" = "1.2" ++ "x" ∧
    (∀ ch ∈ "x".toList, ch.isDigit = false) ∧
    version_tuple "1.2x" = version_tuple "1.2" ∧
    normalize_version "1.2x" ≠ normalize_version "1.2" := by
  refine ⟨by decide, by decide, by decide, by decide⟩

lemma toList_of_append (a c s : String) (h : a = c ++ s) :
    a.toList = c.toList ++ s.toList := by
  subst h
  simp [String.toList, String.data_append]

/-- C6 amended: for version strings differing only by digit-free suffixes
each of which is empty or introduced by the dash separator, the
normalizations agree and the digit-run tuples agree, so the claimed
equivalence holds; a digit-free suffix not introduced by a dash can break
it (see the counterexample). -/
theorem c6_normalize_dashsep (a b c s1 s2 : String)
    (ha : a = c ++ s1) (hb : b = c ++ s2)
    (h1d : ∀ ch ∈ s1.toList, ch.isDigit = false)
    (h2d : ∀ ch ∈ s2.toList, ch.isDigit = false)
    (h1s : s1.toList = [] ∨ ∃ t, s1.toList = '-' :: t)
    (h2s : s2.toList = [] ∨ ∃ t, s2.toList = '-' :: t) :
    (normalize_version a = normalize_version b ↔ version_tuple a = version_tuple b) ∧
    normalize_version a = normalize_version b ∧
    version_tuple a = version_tuple b := by
  have hnorm : ∀ x s : String, x = c ++ s →
      (s.toList = [] ∨ ∃ t, s.toList = '-' :: t) →
      normalize_version x = normalize_version c := by
    intro x s hx hs
    unfold normalize_version
    rw [toList_of_append x c s hx, takeWhile_append_dashsep c.toList s.toList hs]
  have hvt : ∀ x s : String, x = c ++ s →
      (∀ ch ∈ s.toList, ch.isDigit = false) →
      version_tuple x = version_tuple c := by
    intro x s hx hd
    unfold version_tuple
    rw [toList_of_append x c s hx, digitRunsAux_append_no_digit c.toList s.toList [] hd]
  have hn : normalize_version a = normalize_version b := by
    rw [hnorm a s1 ha h1s, hnorm b s2 hb h2s]
  have hv : version_tuple a = version_tuple b := by
    rw [hvt a s1 ha h1d, hvt b s2 hb h2d]
  exact ⟨⟨fun _ => hv, fun _ => hn⟩, hn, hv⟩

/-- C6 witness: `"1.2.3-spigot"` and `"1.2.3"` differ by the dash-introduced
digit-free suffix `"-spigot"`; their normalizations and digit-run tuples
agree. -/
theorem c6_normalize_dashsep_witness :
    normalize_version "1.2.3-spigot" = normalize_version "1.2.3" ∧
    version_tuple "1.2.3-spigot" = version_tuple "1.2.3" := by
  have h := c6_normalize_dashsep "1.2.3-spigot" "1.2.3" "1.2.3" "-spigot" ""
    (by decide) (by decide) (by decide) (by decide)
    (Or.inr ⟨"spigot".toList, by decide⟩) (Or.inl (by decide))
  exact ⟨h.2.1, h.2.2⟩

/-- C7 counterexample: `foo.jar` matches the cleanup glob but does not fit
the fixed filename pattern, and the inspector returns none even though a
file matches a glob — refuting the claim that none is returned exactly when
no file matches any glob pattern. -/
theorem c7_glob_match_without_fit :
    globMatch "*.jar" "foo.jar" = true ∧
    filenameVersion "foo.jar" = none ∧
    get_installed_version ["foo.jar"] ["*.jar"] = none := by
  refine ⟨by decide, by decide, by decide⟩

/-- C7 amended: the inspector returns none exactly when no file matches
both some cleanup glob and the fixed filename pattern; for each pattern it
returns the version of the first directory entry matching the glob and
fitting the pattern, and patterns are scanned in declared order with the
first pattern yielding a hit winning. -/
theorem c7_installed_state_amended (files globs : List String) (pat : String) :
    (get_installed_version files globs = none ↔
      ∀ p ∈ globs, ∀ f ∈ files, globMatch p f = true → filenameVersion f = none) ∧
    (findInPattern pat files =
      ((files.filter fun f => globMatch pat f && (filenameVersion f).isSome).head?).bind
        filenameVersion) ∧
    (get_installed_version files globs =
      firstSome (globs.map fun p => findInPattern p files)) :=
  ⟨get_installed_none_iff files globs, findInPattern_head pat files,
    get_installed_firstSome files globs⟩

/-- C7 witness: with a glob-matching but non-fitting entry first, the
version comes from the first fitting entry, and a directory with no
glob-and-pattern match yields none. -/
theorem c7_installed_state_amended_witness :
    get_installed_version ["foo.jar", "a-1.2.jar"] ["*.zip", "*.jar"] = some "1.2" ∧
    get_installed_version ["foo.jar"] ["*.jar"] = none := by
  constructor
  · exact (c7_installed_state_amended ["foo.jar", "a-1.2.jar"] ["*.zip", "*.jar"]
      "*.jar").2.2.trans (by decide)
  · exact (c7_installed_state_amended ["foo.jar"] ["*.jar"] "*.jar").1.mpr (by decide)

/-- C9 counterexample: the fallback does return the plugin's own name, but
the claimed consequence fails when the plugin name itself equals the
installed version: with plugin name `"1.2"`, a URL without a dotted numeric
substring and `plug-1.2.jar` installed, sync treats the target as in sync
rather than as a mismatch. -/
theorem c9_name_version_collision :
    searchVersion "https://ex/plug.jar" = none ∧
    get_config_version (some "https://ex/plug.jar") "1.2" = "1.2" ∧
    get_installed_version ["plug-1.2.jar"] ["*.jar"] = some "1.2" ∧
    (sync_target (get_config_version (some "https://ex/plug.jar") "1.2")
        "https://ex/plug.jar" ["*.jar"] ["plug-1.2.jar"] true).downloaded = none := by
  refine ⟨by decide, by decide, by decide, by decide⟩

/-- C9 amended: with no URL, or a URL without a dotted numeric version
substring, the config-version extractor returns the plugin's own name, so
sync and discover compare the installed version against the name; whenever
the normalized installed version consists of digits and dots while the
normalized plugin name contains some other character (so the name cannot
equal the version), sync takes its delete-and-redownload branch and
discover never reports up-to-date. -/
theorem c9_config_fallback_mismatch (plugin_name url : String)
    (globs files : List String) (dlOk : Bool) (iv : String)
    (latest_version : Option String) (dirExists : Bool) :
    (get_config_version none plugin_name = plugin_name) ∧
    (searchVersion url = none → url ≠ "" →
      get_config_version (some url) plugin_name = plugin_name) ∧
    (get_installed_version files globs = some iv →
      get_config_version (some url) plugin_name = plugin_name →
      (∀ ch ∈ (normalize_version iv).toList, ch.isDigit = true ∨ ch = '.') →
      (∃ ch ∈ (normalize_version plugin_name).toList, ch.isDigit = false ∧ ch ≠ '.') →
      (sync_target (get_config_version (some url) plugin_name) url globs files
          dlOk).downloaded = some url ∧
      (∀ s : String,
        (discover_target (get_config_version (some url) plugin_name) latest_version
            dirExists globs files).msg ≠ DiscoverMsg.upToDate s)) := by
  refine ⟨rfl, ?_, ?_⟩
  · intro hsv hurl
    have hurl2 : (url == "") = false := by simp [hurl]
    simp [get_config_version, hurl2, hsv]
  · intro hinst hcfg hdig hname
    have hne : normalize_version iv ≠ normalize_version plugin_name := by
      intro heq
      obtain ⟨ch, hch, hd, hdot⟩ := hname
      rw [← heq] at hch
      rcases hdig ch hch with hd2 | hd2
      · rw [hd2] at hd
        exact absurd hd (by simp)
      · exact hdot hd2
    have hsync : (sync_target (get_config_version (some url) plugin_name) url globs files
        dlOk).downloaded = some url := by
      rw [hcfg]
      have hcond : (get_installed_version files globs).map normalize_version ≠
          some (normalize_version plugin_name) := by
        rw [hinst]
        intro h
        exact hne (by simpa using h)
      cases dlOk <;> simp [sync_target, hcond]
    refine ⟨hsync, ?_⟩
    intro s
    rw [hcfg]
    unfold discover_target
    simp only [hinst]
    by_cases hnl : some (normalize_version iv) ≠ latest_version.map normalize_version
    · simp [hnl]
    · simp [hnl, hne]

/-- C9 witness: plugin `plug` with a version-free URL and `plug-1.2.jar`
installed — sync redownloads the configured URL and discover does not
report up-to-date. -/
theorem c9_config_fallback_mismatch_witness :
    (sync_target (get_config_version (some "https://ex/plug.jar") "plug")
        "https://ex/plug.jar" ["*.jar"] ["plug-1.2.jar"] true).downloaded =
      some "https://ex/plug.jar" ∧
    (discover_target (get_config_version (some "https://ex/plug.jar") "plug")
        none false ["*.jar"] ["plug-1.2.jar"]).msg ≠ DiscoverMsg.upToDate "1.2" := by
  have h := (c9_config_fallback_mismatch "plug" "https://ex/plug.jar" ["*.jar"]
      ["plug-1.2.jar"] true "1.2" none false).2.2 (by decide) (by decide)
    (by decide) ⟨'p', by decide, by decide, by decide⟩
  exact ⟨h.1, h.2 "1.2"⟩
